import Mathlib

/-!
Shallow embedding of the CockroachDB dialect of the sequelize-cockroachdb
repository: the dialect's data types (`packages/core/src/dialects/cockroachdb/data-types.ts`,
present as `src/unnamed/part_000`) and the dialect's capability descriptor and
bind collector (`packages/core/src/dialects/cockroachdb/index.ts`).

JavaScript exceptions are embedded as `Except`: a function that can throw
returns `Except DataTypeError _`.  `ValidationErrorItem.throwDataTypeValidationError`
becomes `Except.error (DataTypeError.validation msg)`; a plain thrown `Error`
becomes `Except.error (DataTypeError.generic msg)`.  JavaScript numbers that
hold integer quantities are embedded as `Int`/`Nat`.
-/

namespace CockroachDb

/-- Embedding of the two ways this dialect's code signals a failure:
`ValidationErrorItem.throwDataTypeValidationError(msg)` (a typed data-validation
error) and `throw new Error(msg)` (a generic error). -/
inductive DataTypeError where
  | validation (msg : String)
  | generic (msg : String)
deriving DecidableEq, Repr

/-- Options record of the integer data types (`BaseIntegerDataType.options`):
the `length` display-width option and the `unsigned` flag. -/
structure IntegerOptions where
  length : Option Nat := none
  unsigned : Bool := false
deriving DecidableEq, Repr

/-- Embedding of `removeUnsupportedIntegerOptions` (data-types.ts): when a
`length` option is present it warns through `dialect.warnDataTypeIssue` (the
advisory channel, embedded as the returned list of messages) and deletes the
option.  `dialectName` stands for `dialect.name` and `typeId` for
`dataType.getDataTypeId()`. -/
def removeUnsupportedIntegerOptions (dialectName typeId : String) (o : IntegerOptions) :
    IntegerOptions × List String :=
  match o.length with
  | some _ =>
    ({ o with length := none },
     [dialectName ++ " does not support " ++ typeId ++
        " with length specified. This options is ignored."])
  | none => (o, [])

/-- Modelled from the spec: the shared base class `_checkOptionSupport`
(`BaseTypes`, not under src/) performs capability checks that leave the
options of these integer types untouched and record no advisory; the spec's
"exactly one advisory is recorded" attributes the single advisory to the
dialect-level length strip. -/
def baseCheckOptionSupport (o : IntegerOptions) : IntegerOptions × List String :=
  (o, [])

/-- Embedding of `TINYINT._checkOptionSupport`: the base check followed by
`removeUnsupportedIntegerOptions`. -/
def TINYINT.checkOptionSupport (o : IntegerOptions) : IntegerOptions × List String :=
  let base := baseCheckOptionSupport o
  let stripped := removeUnsupportedIntegerOptions "cockroachdb" "TINYINT" base.1
  (stripped.1, base.2 ++ stripped.2)

/-- Embedding of `TINYINT.toSql`: always `'SMALLINT'`. -/
def TINYINT.toSql (_ : IntegerOptions) : String :=
  "SMALLINT"

/-- Embedding of `MEDIUMINT._checkOptionSupport`. -/
def MEDIUMINT.checkOptionSupport (o : IntegerOptions) : IntegerOptions × List String :=
  let base := baseCheckOptionSupport o
  let stripped := removeUnsupportedIntegerOptions "cockroachdb" "MEDIUMINT" base.1
  (stripped.1, base.2 ++ stripped.2)

/-- Embedding of `MEDIUMINT.toSql`: always `'INTEGER'`. -/
def MEDIUMINT.toSql (_ : IntegerOptions) : String :=
  "INTEGER"

/-- Embedding of `INTEGER.toSql`: `'BIGINT'` when the `unsigned` option is set,
`'INTEGER'` otherwise. -/
def INTEGER.toSql (o : IntegerOptions) : String :=
  if o.unsigned then "BIGINT" else "INTEGER"

/-- Embedding of `SMALLINT.toSql`: `'INTEGER'` when the `unsigned` option is
set, `'SMALLINT'` otherwise. -/
def SMALLINT.toSql (o : IntegerOptions) : String :=
  if o.unsigned then "INTEGER" else "SMALLINT"

/-- Decimal digit characters of a natural number, most significant first:
the embedding of the decimal rendering performed by JavaScript's `String(n)`
for a nonnegative integer. -/
def decimalDigits (n : Nat) : List Char :=
  if _h : n < 10 then [Nat.digitChar n]
  else decimalDigits (n / 10) ++ [Nat.digitChar (n % 10)]
termination_by n
decreasing_by exact Nat.div_lt_self (by omega) (by omega)

/-- Numeric value of a decimal digit character. -/
def decDigitVal (c : Char) : Nat :=
  c.toNat - 48

/-- Reads a most-significant-first digit list back into a natural number. -/
def decodeDigits (cs : List Char) : Nat :=
  cs.foldl (fun a c => 10 * a + decDigitVal c) 0

/-- `Number.MAX_SAFE_INTEGER`. -/
def maxSafeInteger : Int :=
  2 ^ 53 - 1

/-- Result of `INTEGER.sanitize`: JavaScript lets the method return either the
number it was given or a string. -/
inductive SanitizedValue where
  | num (v : Int)
  | str (s : String)
deriving DecidableEq, Repr

/-- Embedding of `INTEGER.sanitize`: values above `Number.MAX_SAFE_INTEGER`
are replaced by their decimal string (`String(value)`, which on the
nonnegative integers reaching this branch is the plain decimal rendering),
every other value is returned unchanged. -/
def INTEGER.sanitize (value : Int) : SanitizedValue :=
  if maxSafeInteger < value then .str (String.mk (decimalDigits value.toNat))
  else .num value

theorem decDigitVal_digitChar {k : Nat} (h : k < 10) :
    decDigitVal (Nat.digitChar k) = k := by
  interval_cases k <;> decide

theorem decodeDigits_append (xs : List Char) (c : Char) :
    decodeDigits (xs ++ [c]) = 10 * decodeDigits xs + decDigitVal c := by
  simp [decodeDigits, List.foldl_append]

theorem decodeDigits_decimalDigits (n : Nat) :
    decodeDigits (decimalDigits n) = n := by
  induction n using Nat.strong_induction_on with
  | _ n ih =>
    unfold decimalDigits
    split
    · next h =>
      simp [decodeDigits, decDigitVal_digitChar h]
    · next h =>
      rw [decodeDigits_append, ih (n / 10) (Nat.div_lt_self (by omega) (by omega)),
        decDigitVal_digitChar (Nat.mod_lt _ (by omega))]
      omega

theorem decimalDigits_injective : Function.Injective decimalDigits := by
  intro m n h
  have h2 := congrArg decodeDigits h
  rwa [decodeDigits_decimalDigits, decodeDigits_decimalDigits] at h2

/-- C2: `INTEGER.sanitize` turns a value above `Number.MAX_SAFE_INTEGER` into
its exact decimal string — exact in that decoding the digits recovers the
value — and returns every other value, including negative values of arbitrary
magnitude, unchanged. -/
theorem INTEGER_sanitize_exact_above_safe_range (value : Int) :
    (maxSafeInteger < value →
      INTEGER.sanitize value = .str (String.mk (decimalDigits value.toNat)) ∧
      decodeDigits (decimalDigits value.toNat) = value.toNat ∧
      (value.toNat : Int) = value) ∧
    (value ≤ maxSafeInteger → INTEGER.sanitize value = .num value) := by
  constructor
  · intro h
    refine ⟨?_, decodeDigits_decimalDigits _, ?_⟩
    · simp [INTEGER.sanitize, h]
    · have hpos : (0 : Int) ≤ value := by
        have : (0 : Int) ≤ maxSafeInteger := by decide
        omega
      exact Int.toNat_of_nonneg hpos
  · intro h
    simp [INTEGER.sanitize, not_lt.mpr h]

/-- C2 witness: `2 ^ 53` (just above the safe range) is stringified, and a
negative value of large magnitude passes through unchanged. -/
theorem INTEGER_sanitize_exact_above_safe_range_witness :
    INTEGER.sanitize 9007199254740992 =
      .str (String.mk (decimalDigits (9007199254740992 : Int).toNat)) ∧
    INTEGER.sanitize (-987654321987654321987654321) =
      .num (-987654321987654321987654321) :=
  ⟨((INTEGER_sanitize_exact_above_safe_range 9007199254740992).1 (by decide)).1,
   (INTEGER_sanitize_exact_above_safe_range (-987654321987654321987654321)).2 (by decide)⟩

/-- C5: constructing TINYINT or MEDIUMINT with a length option has the option
check clear the length option and record exactly one advisory, and `toSql()`
afterwards is the widened native type: `'SMALLINT'` for TINYINT and
`'INTEGER'` for MEDIUMINT. -/
theorem narrow_integer_length_option_stripped (n : Nat) (u : Bool) :
    (TINYINT.checkOptionSupport { length := some n, unsigned := u }).1.length = none ∧
    (TINYINT.checkOptionSupport { length := some n, unsigned := u }).2.length = 1 ∧
    TINYINT.toSql (TINYINT.checkOptionSupport { length := some n, unsigned := u }).1 =
      "SMALLINT" ∧
    (MEDIUMINT.checkOptionSupport { length := some n, unsigned := u }).1.length = none ∧
    (MEDIUMINT.checkOptionSupport { length := some n, unsigned := u }).2.length = 1 ∧
    MEDIUMINT.toSql (MEDIUMINT.checkOptionSupport { length := some n, unsigned := u }).1 =
      "INTEGER" :=
  ⟨rfl, rfl, rfl, rfl, rfl, rfl⟩

/-- C6: with no native unsigned support, `toSql()` of an unsigned type is the
next wider native signed type — SMALLINT unsigned renders `'INTEGER'` and
INTEGER unsigned renders `'BIGINT'` — while without the unsigned option each
type renders its own native name. -/
theorem unsigned_integer_promoted_to_wider_type (len : Option Nat) :
    SMALLINT.toSql { length := len, unsigned := true } = "INTEGER" ∧
    SMALLINT.toSql { length := len, unsigned := false } = "SMALLINT" ∧
    INTEGER.toSql { length := len, unsigned := true } = "BIGINT" ∧
    INTEGER.toSql { length := len, unsigned := false } = "INTEGER" :=
  ⟨rfl, rfl, rfl, rfl⟩

/-- Embedding of the JavaScript values handed to `ARRAY.validate`: a value is
either an array of values or a non-array atom. -/
inductive JsValue where
  | atom (n : Nat)
  | arr (elems : List JsValue)

/-- Embedding of `Array.isArray`. -/
def JsValue.isArray : JsValue → Bool
  | .arr _ => true
  | .atom _ => false

mutual

/-- Embedding of `getArrayDepth` (data-types.ts): an array is one deeper than
the deepest of its elements (`1 + Math.max(0, ...value.map(getArrayDepth))`),
a non-array has depth `0`. -/
def getArrayDepth : JsValue → Nat
  | .arr xs => 1 + getArrayDepthList xs
  | .atom _ => 0

/-- `Math.max(0, ...xs.map(getArrayDepth))`: the fold of `max` over the
element depths starting from `0`. -/
def getArrayDepthList : List JsValue → Nat
  | [] => 0
  | x :: xs => max (getArrayDepth x) (getArrayDepthList xs)

end

/-- Embedding of `ARRAY.validate` (data-types.ts): an array value of depth
greater than one is rejected with a data validation error, any other value is
delegated to the base class validation (`superValidate`). -/
def ARRAY.validate (superValidate : JsValue → Except DataTypeError Unit)
    (value : JsValue) : Except DataTypeError Unit :=
  if value.isArray = true then
    if getArrayDepth value > 1 then
      .error (.validation "CockroachDB does not support nested arrays.")
    else
      superValidate value
  else
    superValidate value

theorem getArrayDepth_pos_iff (v : JsValue) :
    1 ≤ getArrayDepth v ↔ v.isArray = true := by
  cases v <;> simp [getArrayDepth, JsValue.isArray]

theorem getArrayDepthList_pos_iff (xs : List JsValue) :
    1 ≤ getArrayDepthList xs ↔ ∃ x ∈ xs, x.isArray = true := by
  induction xs with
  | nil => simp [getArrayDepthList]
  | cons x xs ih =>
    rw [getArrayDepthList, le_max_iff, getArrayDepth_pos_iff, ih]
    simp

/-- C4: on this engine, which lacks nested-array support, `ARRAY.validate`
fails with a data validation error on every array some element of which is
itself an array, and delegates a flat array to the element-wise base
validation. -/
theorem ARRAY_validate_rejects_nested_accepts_flat
    (superValidate : JsValue → Except DataTypeError Unit) (xs : List JsValue) :
    ((∃ x ∈ xs, x.isArray = true) →
      ARRAY.validate superValidate (.arr xs) =
        .error (.validation "CockroachDB does not support nested arrays.")) ∧
    ((∀ x ∈ xs, x.isArray = false) →
      ARRAY.validate superValidate (.arr xs) = superValidate (.arr xs)) := by
  constructor
  · intro h
    have h1 : 1 ≤ getArrayDepthList xs := (getArrayDepthList_pos_iff xs).2 h
    have hd : getArrayDepth (JsValue.arr xs) > 1 := by
      rw [getArrayDepth]; omega
    simp [ARRAY.validate, JsValue.isArray, hd]
  · intro h
    have h1 : ¬ 1 ≤ getArrayDepthList xs := by
      rw [getArrayDepthList_pos_iff]
      rintro ⟨x, hx, hx2⟩
      exact absurd hx2 (by simp [h x hx])
    have hd : ¬ getArrayDepth (JsValue.arr xs) > 1 := by
      rw [getArrayDepth]; omega
    simp [ARRAY.validate, JsValue.isArray, hd]

/-- C4 witness: `[[1,2],[3,4]]` is rejected with the nested-array validation
error and the flat `[1,2]` is delegated to the base validation. -/
theorem ARRAY_validate_rejects_nested_accepts_flat_witness :
    ARRAY.validate (fun _ => .ok ())
        (.arr [.arr [.atom 1, .atom 2], .arr [.atom 3, .atom 4]]) =
      .error (.validation "CockroachDB does not support nested arrays.") ∧
    ARRAY.validate (fun _ => .ok ()) (.arr [.atom 1, .atom 2]) = .ok () :=
  ⟨(ARRAY_validate_rejects_nested_accepts_flat _ _).1
      ⟨.arr [.atom 1, .atom 2], by simp, rfl⟩,
   (ARRAY_validate_rejects_nested_accepts_flat _ _).2
      (by intro x hx; rcases List.mem_pair.mp hx with rfl | rfl <;> rfl)⟩

/-- The facts `ARRAY.escape` (data-types.ts) uses about its element type
`this.options.type`: whether it is a raw string (`isString(type)`), whether it
is an instance of the base `STRING` / `TEXT` / `INTEGER` classes, its SQL name
(`attributeTypeToSql(type)`), and its inline escaping function
(`type.escape`).  Element values are represented by their source form as
strings. -/
structure ArrayElemType where
  isRawString : Bool
  instSTRING : Bool
  instTEXT : Bool
  instINTEGER : Bool
  sqlName : String
  escapeValue : String → String

/-- Embedding of `ARRAY.escape` (data-types.ts): element-wise escaped values
joined by commas inside `ARRAY[...]`, followed by a `::type[]` cast whenever
the array is empty or the element type is not one of the unambiguous ones. -/
def ARRAY.escape (t : ArrayElemType) (values : List String) : String :=
  let mappedValues := if t.isRawString then values else values.map t.escapeValue
  let unambiguousType := t.instSTRING || t.instTEXT || t.instINTEGER
  let cast :=
    if mappedValues.length == 0 || !unambiguousType then "::" ++ t.sqlName ++ "[]" else ""
  "ARRAY[" ++ String.intercalate "," mappedValues ++ "]" ++ cast

/-- The ARRAY element type built from this dialect's `INTEGER` class for use
at a concrete input: an instance of the base `INTEGER` class (hence
unambiguous), whose SQL name is its `toSql()` and whose values are already in
source form. -/
def integerElementType : ArrayElemType where
  isRawString := false
  instSTRING := false
  instTEXT := false
  instINTEGER := true
  sqlName := INTEGER.toSql {}
  escapeValue := fun s => s

/-- C3 counterexample: the empty array with the unambiguous `INTEGER` element
type is rendered with an explicit cast (`ARRAY[]::INTEGER[]`), not as the
cast-free `ARRAY[]` prescribed by the claim that the output omits the cast
exactly when the element type is unambiguous. -/
theorem ARRAY_escape_empty_array_cast_counterexample :
    (integerElementType.instSTRING || integerElementType.instTEXT ||
      integerElementType.instINTEGER) = true ∧
    ARRAY.escape integerElementType [] = "ARRAY[]::INTEGER[]" ∧
    ARRAY.escape integerElementType [] ≠ "ARRAY[]" := by
  refine ⟨rfl, rfl, ?_⟩
  decide

/-- C3 amended: `ARRAY.escape` renders `ARRAY[` followed by the element-wise
escaped values (taken verbatim when the element type is a raw string) joined
by commas, `]`, and an optional `::type[]` cast; the cast is omitted exactly
when the array is non-empty and the element type is unambiguous (an instance
of plain string, plain text, or plain integer). -/
theorem ARRAY_escape_cast_iff_empty_or_ambiguous (t : ArrayElemType)
    (values : List String) :
    ARRAY.escape t values =
      "ARRAY[" ++
        String.intercalate ","
          (if t.isRawString then values else values.map t.escapeValue) ++
      "]" ++
        (if values ≠ [] ∧
            (t.instSTRING = true ∨ t.instTEXT = true ∨ t.instINTEGER = true)
         then "" else "::" ++ t.sqlName ++ "[]") := by
  have hlen : (if t.isRawString then values else values.map t.escapeValue).length
      = values.length := by
    split <;> simp
  rcases values with _ | ⟨v, vs⟩
  · simp [ARRAY.escape]
  · cases hR : t.isRawString <;> cases hS : t.instSTRING <;> cases hT : t.instTEXT <;>
      cases hI : t.instINTEGER <;>
      simp [ARRAY.escape, hR, hS, hT, hI, hlen]

/-- Per-type infinity capability record
(`dataTypes.DATETIME / DATEONLY: { infinity: bool }`). -/
structure InfinitySupport where
  infinity : Bool
deriving DecidableEq, Repr

/-- The `dataTypes` branch of the dialect's capability descriptor, restricted
to the boolean and infinity flags this development needs; the values are the
overrides declared by `CockroachDbDialect.supports` (index.ts). -/
structure DataTypesSupport where
  ARRAY : Bool
  JSONB : Bool
  DATETIME : InfinitySupport
  DATEONLY : InfinitySupport
deriving DecidableEq, Repr

/-- The slice of the capability descriptor this development needs. -/
structure DialectSupports where
  multiDatabases : Bool
  schemas : Bool
  dataTypes : DataTypesSupport
deriving DecidableEq, Repr

/-- Embedding of the corresponding entries of `CockroachDbDialect.supports`
(index.ts): `multiDatabases: true`, `schemas: true`,
`dataTypes: { ARRAY: true, JSONB: true, DATETIME: { infinity: true },
DATEONLY: { infinity: true }, ... }`. -/
def CockroachDbDialect.supports : DialectSupports where
  multiDatabases := true
  schemas := true
  dataTypes :=
    { ARRAY := true
      JSONB := true
      DATETIME := { infinity := true }
      DATEONLY := { infinity := true } }

/-- Embedding of the values accepted by the DATE type (`AcceptedDate`): the
positive- and negative-infinity sentinels, or any finite date value. -/
inductive AcceptedDate where
  | posInfinity
  | negInfinity
  | finite (iso : String)
deriving DecidableEq, Repr

/-- Embedding of `DATE.validate` (data-types.ts): a value equal to
`Number.POSITIVE_INFINITY` or `Number.NEGATIVE_INFINITY` is rejected with a
data validation error (message verbatim from the source, typo included);
every other value is delegated to the base class validation. -/
def DATE.validate (superValidate : AcceptedDate → Except DataTypeError Unit)
    (value : AcceptedDate) : Except DataTypeError Unit :=
  match value with
  | .posInfinity =>
    .error (.validation
      "CockroachDB does not support negative and positive infitnity values in date")
  | .negInfinity =>
    .error (.validation
      "CockroachDB does not support negative and positive infitnity values in date")
  | v => superValidate v

/-- Embedding of `DATE.toBindableValue` (data-types.ts): positive infinity is
rendered as CockroachDB's maximum representable timestamp literal, negative
infinity as its minimum, and every other value is delegated to the base
class. -/
def DATE.toBindableValue (superToBindableValue : AcceptedDate → String)
    (value : AcceptedDate) : String :=
  match value with
  | .posInfinity => "294276-12-31 23:59:59.999999+00:00"
  | .negInfinity => "-4713-11-24 00:00:00+00:00"
  | v => superToBindableValue v

/-- C1: evaluation of the code at the failing input.  The dialect's
capability descriptor declares DATETIME infinity support, and
`DATE.toBindableValue` renders the infinity sentinels as the engine's maximum
and minimum representable timestamp literals — yet `DATE.validate` raises a
data validation error for both sentinels, so on this dialect (contrary to the
claim, and making the two rendering branches unreachable behind validation)
an infinite date is rejected rather than accepted and rendered. -/
theorem DATE_infinity_rejected_despite_declared_support :
    CockroachDbDialect.supports.dataTypes.DATETIME.infinity = true ∧
    (∀ superValidate,
      DATE.validate superValidate .posInfinity =
        .error (.validation
          "CockroachDB does not support negative and positive infitnity values in date") ∧
      DATE.validate superValidate .negInfinity =
        .error (.validation
          "CockroachDB does not support negative and positive infitnity values in date")) ∧
    (∀ superToBindableValue,
      DATE.toBindableValue superToBindableValue .posInfinity =
        "294276-12-31 23:59:59.999999+00:00" ∧
      DATE.toBindableValue superToBindableValue .negInfinity =
        "-4713-11-24 00:00:00+00:00") :=
  ⟨rfl, fun _ => ⟨rfl, rfl⟩, fun _ => ⟨rfl, rfl⟩⟩

/-- The usage context a logical type can be attached to (`this.usageContext`):
either a model attribute (whose column name is the attribute's `field` when
set, the attribute name otherwise) or a raw (table, column) pair. -/
inductive EnumUsageContext where
  | modelAttr (tableName attributeName : String) (field : Option String)
  | column (tableName columnName : String)
deriving DecidableEq, Repr

/-- Embedding of `ENUM.toSql` (data-types.ts): with no usage context attached
it throws a plain error; otherwise it renders the name of the engine-level
enum type for the owning (table, column) pair.  `pgEnumName` stands for
`queryGenerator.pgEnumName`, which lives outside src/ and is kept abstract:
the name it derives from the pair. -/
def ENUM.toSql (pgEnumName : String → String → String)
    (usageContext : Option EnumUsageContext) : Except DataTypeError String :=
  match usageContext with
  | none =>
    .error (.generic
      "Could not determine the name of this enum because it is not attached to an attribute or a column.")
  | some (.modelAttr tableName attributeName field) =>
    .ok (pgEnumName tableName (field.getD attributeName))
  | some (.column tableName columnName) =>
    .ok (pgEnumName tableName columnName)

/-- C7: `ENUM.toSql` fails when no usage context is attached, and otherwise
renders the named engine-level type derived from the owning (table, column)
pair — the declared column name for a table/column context, and the
attribute's `field` (falling back to the attribute name) for a model
attribute context. -/
theorem ENUM_toSql_requires_usage_context (pgEnumName : String → String → String) :
    ENUM.toSql pgEnumName none =
      .error (.generic
        "Could not determine the name of this enum because it is not attached to an attribute or a column.") ∧
    (∀ tableName attributeName field,
      ENUM.toSql pgEnumName (some (.modelAttr tableName attributeName field)) =
        .ok (pgEnumName tableName (field.getD attributeName))) ∧
    (∀ tableName columnName,
      ENUM.toSql pgEnumName (some (.column tableName columnName)) =
        .ok (pgEnumName tableName columnName)) :=
  ⟨rfl, fun _ _ _ => rfl, fun _ _ => rfl⟩

/-- Modelled from the spec: `dropDatabaseQuery` (the query generator lives
outside src/; its unit test and the spec fix the behaviour): on an engine
whose descriptor marks database support absent it raises the
unsupported-feature error `Databases are not supported in <dialect>.` and
produces no SQL, and on a supporting engine it produces
`DROP DATABASE IF EXISTS <database>;` with the identifier quoted by the
dialect's quoting function. -/
def dropDatabaseQuery (supports : DialectSupports) (dialectName : String)
    (quoteIdentifier : String → String) (databaseName : String) :
    Except String String :=
  if supports.multiDatabases then
    .ok ("DROP DATABASE IF EXISTS " ++ quoteIdentifier databaseName ++ ";")
  else
    .error ("Databases are not supported in " ++ dialectName ++ ".")

/-- C8: a drop-database request on an engine without database support
produces no SQL and fails with an error whose message embeds that engine's
name, while on a supporting engine — in particular this dialect, whose
descriptor sets `multiDatabases` — it produces the
`DROP DATABASE IF EXISTS` statement for the named database. -/
theorem dropDatabaseQuery_feature_gated (supports : DialectSupports)
    (dialectName databaseName : String) (quoteIdentifier : String → String) :
    (supports.multiDatabases = false →
      dropDatabaseQuery supports dialectName quoteIdentifier databaseName =
        .error ("Databases are not supported in " ++ dialectName ++ ".") ∧
      (∃ pre post,
        "Databases are not supported in " ++ dialectName ++ "." =
          pre ++ dialectName ++ post)) ∧
    (supports.multiDatabases = true →
      dropDatabaseQuery supports dialectName quoteIdentifier databaseName =
        .ok ("DROP DATABASE IF EXISTS " ++ quoteIdentifier databaseName ++ ";")) ∧
    CockroachDbDialect.supports.multiDatabases = true := by
  refine ⟨fun h => ⟨?_, "Databases are not supported in ", ".", rfl⟩, fun h => ?_, rfl⟩
  · simp [dropDatabaseQuery, h]
  · simp [dropDatabaseQuery, h]

/-- C8 witness: on a descriptor with `multiDatabases` cleared the request
fails with the engine-named error, and on this dialect's descriptor it yields
the drop statement. -/
theorem dropDatabaseQuery_feature_gated_witness :
    dropDatabaseQuery { CockroachDbDialect.supports with multiDatabases := false }
        "sqlite" (fun s => s) "myDatabase" =
      .error ("Databases are not supported in " ++ "sqlite" ++ ".") ∧
    dropDatabaseQuery CockroachDbDialect.supports "cockroachdb"
        (fun s => "\"" ++ s ++ "\"") "myDatabase" =
      .ok ("DROP DATABASE IF EXISTS " ++ ("\"" ++ "myDatabase" ++ "\"") ++ ";") :=
  ⟨((dropDatabaseQuery_feature_gated _ "sqlite" "myDatabase" (fun s => s)).1 rfl).1,
   (dropDatabaseQuery_feature_gated _ "cockroachdb" "myDatabase"
      (fun s => "\"" ++ s ++ "\"")).2.1 rfl⟩

/-- Embedding of the test of the regular expression `/^[-+]?[0-9]+$/` used by
`BIGINT.$stringify`: an optional sign followed by one or more decimal
digits. -/
def integerPatternTest (s : String) : Bool :=
  match s.data with
  | [] => false
  | c :: cs =>
    if c = '-' ∨ c = '+' then !cs.isEmpty && cs.all Char.isDigit
    else (c :: cs).all Char.isDigit

/-- JSON escaping of one character, as performed by `JSON.stringify` on the
characters of a string: quote, backslash and the named control characters get
two-character escapes, the remaining control characters get `\u00XX`, and
every other character stands for itself. -/
def jsonEscapeChar (c : Char) : List Char :=
  if c = '"' then ['\\', '"']
  else if c = '\\' then ['\\', '\\']
  else if c = '\n' then ['\\', 'n']
  else if c = '\t' then ['\\', 't']
  else if c = '\r' then ['\\', 'r']
  else if c = '\x08' then ['\\', 'b']
  else if c = '\x0c' then ['\\', 'f']
  else if c.toNat < 32 then
    ['\\', 'u', '0', '0', Nat.digitChar (c.toNat / 16), Nat.digitChar (c.toNat % 16)]
  else [c]

/-- Embedding of Node's `util.format('%j', value)` substitution for a string
value: its `JSON.stringify` rendering, the escaped characters between double
quotes. -/
def jsonStringifyString (s : String) : String :=
  "\"" ++ String.mk (s.data.flatMap jsonEscapeChar) ++ "\""

/-- Embedding of `BIGINT.$stringify` (data-types.ts): `String(value)` of a
string is the string itself; when it fails the integer pattern a data
validation error carrying `format('%j is not a valid integer', value)` is
raised, otherwise the string is returned unchanged. -/
def BIGINT.stringify (value : String) : Except DataTypeError String :=
  let rep := value
  if !integerPatternTest rep then
    .error (.validation (jsonStringifyString value ++ " is not a valid integer"))
  else
    .ok rep

theorem flatMap_of_escape_free (l : List Char) (hl : ∀ c ∈ l, jsonEscapeChar c = [c]) :
    l.flatMap jsonEscapeChar = l := by
  induction l with
  | nil => rfl
  | cons c cs ih =>
    rw [List.flatMap_cons, hl c (by simp), ih fun x hx => hl x (by simp [hx])]
    rfl

/-- C10: a string failing the optionally-signed-decimal pattern makes
`BIGINT.$stringify` raise a typed data-validation error — never a generic
error — whose message carries the JSON rendering of the offending value (for
an escape-free value the value itself appears verbatim inside the message),
and a string matching the pattern is returned unchanged. -/
theorem BIGINT_stringify_validation_error_on_bad_string (value : String) :
    (integerPatternTest value = true → BIGINT.stringify value = .ok value) ∧
    (integerPatternTest value = false →
      BIGINT.stringify value =
        .error (.validation (jsonStringifyString value ++ " is not a valid integer")) ∧
      ((∀ c ∈ value.data, jsonEscapeChar c = [c]) →
        ∃ pre post,
          jsonStringifyString value ++ " is not a valid integer" =
            pre ++ value ++ post)) := by
  constructor
  · intro h
    simp [BIGINT.stringify, h]
  · intro h
    refine ⟨by simp [BIGINT.stringify, h],
      fun hesc => ⟨"\"", "\"" ++ " is not a valid integer", ?_⟩⟩
    unfold jsonStringifyString
    rw [flatMap_of_escape_free value.data hesc]
    show "\"" ++ value ++ "\"" ++ " is not a valid integer" = _
    simp [String.append_assoc]

/-- C10 witness: `"-42"` matches the pattern and passes through unchanged;
`"12abc"` fails it, raising the typed validation error whose message carries
the value. -/
theorem BIGINT_stringify_validation_error_on_bad_string_witness :
    BIGINT.stringify "-42" = .ok "-42" ∧
    BIGINT.stringify "12abc" =
      .error (.validation (jsonStringifyString "12abc" ++ " is not a valid integer")) ∧
    (∃ pre post,
      jsonStringifyString "12abc" ++ " is not a valid integer" =
        pre ++ "12abc" ++ post) :=
  ⟨(BIGINT_stringify_validation_error_on_bad_string "-42").1 (by decide),
   ((BIGINT_stringify_validation_error_on_bad_string "12abc").2 (by decide)).1,
   ((BIGINT_stringify_validation_error_on_bad_string "12abc").2 (by decide)).2
     (by decide)⟩

/-- Modelled from the spec: the bind collector session created by
`CockroachDbDialect.createBindCollector` via
`createSpecifiedOrderedBindCollector` (utils/sql, outside src/) — an ordered
sequence of bound values scoped to one statement.  Its state is the list of
values bound so far, in binding order. -/
structure BindCollector (α : Type) where
  values : List α

/-- A fresh collector, as handed out per statement. -/
def BindCollector.empty {α : Type} : BindCollector α :=
  ⟨[]⟩

/-- The positional placeholder text `$n`. -/
def bindPlaceholder (n : Nat) : String :=
  String.mk ('$' :: decimalDigits n)

/-- Modelled from the spec: `bind(value) -> placeholderText` appends the
value to the session and returns the next positional placeholder (`$1`, `$2`,
…). -/
def BindCollector.bind {α : Type} (st : BindCollector α) (v : α) :
    String × BindCollector α :=
  (bindPlaceholder (st.values.length + 1), ⟨st.values ++ [v]⟩)

/-- Modelled from the spec: `finalize() -> orderedValueList` returns the
bound values in binding order. -/
def BindCollector.finalize {α : Type} (st : BindCollector α) : List α :=
  st.values

/-- Performs a sequence of `bind` calls against a collector, returning the
placeholders in the order they were handed out together with the final
collector state.  Text composition between the calls does not touch the
collector, so a statement's interaction with its collector is exactly such a
sequence. -/
def runBinds {α : Type} (st : BindCollector α) : List α → List String × BindCollector α
  | [] => ([], st)
  | v :: vs =>
    let step := st.bind v
    let rest := runBinds step.2 vs
    (step.1 :: rest.1, rest.2)

/-- The numeric position a placeholder denotes: the decoded digits after the
`$`. -/
def placeholderValue (s : String) : Nat :=
  decodeDigits (s.data.drop 1)

theorem placeholderValue_bindPlaceholder (n : Nat) :
    placeholderValue (bindPlaceholder n) = n := by
  show decodeDigits (('$' :: decimalDigits n).drop 1) = n
  rw [List.drop_one, List.tail_cons, decodeDigits_decimalDigits]

theorem bindPlaceholder_injective : Function.Injective bindPlaceholder := by
  intro m n h
  have h2 := congrArg placeholderValue h
  rwa [placeholderValue_bindPlaceholder, placeholderValue_bindPlaceholder] at h2

theorem runBinds_eq {α : Type} (st : BindCollector α) (vs : List α) :
    runBinds st vs =
      ((List.range vs.length).map (fun i => bindPlaceholder (st.values.length + i + 1)),
       ⟨st.values ++ vs⟩) := by
  induction vs generalizing st with
  | nil => simp [runBinds]
  | cons v vs ih =>
    have h1 : runBinds st (v :: vs) =
        (bindPlaceholder (st.values.length + 1) :: (runBinds ⟨st.values ++ [v]⟩ vs).1,
         (runBinds ⟨st.values ++ [v]⟩ vs).2) := rfl
    rw [h1, ih]
    refine Prod.ext ?_ ?_
    · rw [List.length_cons, List.range_succ_eq_map, List.map_cons, List.map_map]
      refine congrArg₂ List.cons (congrArg bindPlaceholder (by omega)) ?_
      refine List.map_congr_left fun i _ => ?_
      simp only [Function.comp_apply]
      refine congrArg bindPlaceholder ?_
      simp only [List.length_append, List.length_cons, List.length_nil,
        Nat.succ_eq_add_one]
      omega
    · exact congrArg BindCollector.mk (by simp)

/-- C9: binding the values `vs` in order through one fresh bind collector
yields, for `N = vs.length`, the `N` positional placeholders `$1 … $N` in
order — pairwise distinct and strictly increasing in the position they denote
— and `finalize()` returns exactly `vs` in binding order. -/
theorem bindCollector_ordering_invariant (α : Type) (vs : List α) :
    (runBinds (BindCollector.empty) vs).2.finalize = vs ∧
    (runBinds (BindCollector.empty) vs).1 =
      (List.range vs.length).map (fun i => bindPlaceholder (i + 1)) ∧
    (runBinds (BindCollector.empty) vs).1.Nodup ∧
    (runBinds (BindCollector.empty) vs).1.Pairwise
      (fun p q => placeholderValue p < placeholderValue q) := by
  have hrun := runBinds_eq (BindCollector.empty (α := α)) vs
  have hempty : (BindCollector.empty (α := α)).values = [] := rfl
  have hph : (runBinds (BindCollector.empty) vs).1 =
      (List.range vs.length).map (fun i => bindPlaceholder (i + 1)) := by
    rw [hrun]
    simp [hempty]
  refine ⟨?_, hph, ?_, ?_⟩
  · rw [hrun]
    simp [BindCollector.finalize, hempty]
  · rw [hph]
    exact (List.nodup_range _).map
      (fun a b h => by
        have := bindPlaceholder_injective h
        omega)
  · rw [hph, List.pairwise_map]
    refine (List.pairwise_lt_range _).imp fun h => ?_
    simp only [placeholderValue_bindPlaceholder]
    omega

end CockroachDb
